import Mathlib

/-!
Verification development for a reconciliation engine that synchronises a
router-side hotspot IP-binding list with commands held in a spreadsheet.
The definitions below are a shallow embedding of the Python source
(mikrotik_manager.py and sheet_sync.py): device state is passed
explicitly, Python dictionaries become insertion-ordered association
lists, and device API calls become pure list transformations.
-/

/-- Strings are modelled as lists of characters. -/
abbrev Str := List Char

/-- ASCII whitespace test used by the model of Python str.strip(). -/
def isWS (c : Char) : Bool := c == ' ' || c == '\t' || c == '\n' || c == '\r'

/-- Model of Python str.strip(): drop leading and trailing whitespace. -/
def pyStrip (s : Str) : Str := ((s.dropWhile isWS).reverse.dropWhile isWS).reverse

/-- startsWith pat s: s begins with pat (Python str.startswith). -/
def startsWith : Str → Str → Bool
  | [], _ => true
  | _ :: _, [] => false
  | p :: ps, c :: cs => p == c && startsWith ps cs

/-- splitFirst pat s: the parts of s strictly before and strictly after the
first occurrence of pat in s, or none when pat does not occur.  This models
both Python s.split(pat, 1) (a two-way split) and s.split(pat)[0]. -/
def splitFirst (pat : Str) : Str → Option (Str × Str)
  | [] => if startsWith pat [] then some ([], []) else none
  | c :: rest =>
    if startsWith pat (c :: rest) then some ([], (c :: rest).drop pat.length)
    else
      match splitFirst pat rest with
      | some (pre, post) => some (c :: pre, post)
      | none => none

/-- Model of the Python substring test pat in s. -/
def containsSub (pat s : Str) : Bool := (splitFirst pat s).isSome

/-- Model of Python str.lower() (ASCII, as used on MAC addresses and names). -/
def lowerStr (s : Str) : Str := s.map Char.toLower

/-- Model of Python str.upper() (ASCII, as used on status labels). -/
def upperStr (s : Str) : Str := s.map Char.toUpper

/-- Model of Python s.split(sep) for a one-character separator:
split at every occurrence, keeping empty segments. -/
def splitAll (sep : Char) : Str → List Str
  | [] => [[]]
  | c :: rest =>
    if c == sep then [] :: splitAll sep rest
    else
      match splitAll sep rest with
      | h :: t => (c :: h) :: t
      | [] => [[c]]

/-- Numeric value of a digit string (base 10). -/
def digitsVal (s : Str) : Nat := s.foldl (fun a c => a * 10 + (c.toNat - 48)) 0

/-- Model of Python int(s) restricted to plain digit strings: succeeds
exactly on non-empty all-digit strings (the only shapes the claims use). -/
def pyIntOfStr (s : Str) : Option Nat :=
  if s ≠ [] ∧ s.all Char.isDigit then some (digitsVal s) else none

/-- The comment separator, the literal two-character sequence space-then-at. -/
def sepAt : Str := [' ', '@']

/-- The single at-sign, used by the fallback branches of the rename code. -/
def atOnly : Str := ['@']

/-- One hotspot IP-binding record of the device
(fields id, mac-address, type, comment). -/
structure Binding where
  bid : Nat
  mac : Str
  btype : Str
  comment : Str
deriving DecidableEq, Inhabited

/-- The whole modelled world: the device binding list, the in-memory client
cache (a Python dict, modelled as an insertion-ordered association list),
the DHCP lease and ARP tables (pairs of address and mac), and the device
scheduler entries (pairs of name and date). -/
structure MTState where
  bindings : List Binding
  cache : List (Str × Binding)
  leases : List (Str × Str)
  arps : List (Str × Str)
  scheds : List (Str × Str)
deriving DecidableEq

/-- MikrotikManager._extract_client_name:
full_comment.split(' @')[0].strip(). -/
def extract_client_name (full_comment : Str) : Str :=
  pyStrip (match splitFirst sepAt full_comment with
           | some (pre, _) => pre
           | none => full_comment)

/-- Python dict assignment d[k] = v on an insertion-ordered association
list: overwrite the value in place when the key exists, else append. -/
def dinsert (d : List (Str × Binding)) (k : Str) (v : Binding) :
    List (Str × Binding) :=
  if d.any (fun p => p.1 == k) then
    d.map (fun p => if p.1 == k then (p.1, v) else p)
  else d ++ [(k, v)]

/-- Python dict lookup d.get(k) (keys are unique in dinsert-built lists). -/
def dget (d : List (Str × Binding)) (k : Str) : Option Binding :=
  (d.find? (fun p => p.1 == k)).map (fun p => p.2)

/-- One iteration of the loop in MikrotikManager._load_clients: skip
bindings with an empty comment, otherwise install under the derived name. -/
def loadStep (d : List (Str × Binding)) (b : Binding) : List (Str × Binding) :=
  if b.comment == [] then d else dinsert d (extract_client_name b.comment) b

/-- MikrotikManager._load_clients: scan the device binding list and build
the client directory keyed by the name derived from each comment. -/
def load_clients (bs : List Binding) : List (Str × Binding) :=
  bs.foldl loadStep []

/-- MikrotikManager.refresh_clients_cache: rebuild the cache from the
device binding list. -/
def refresh (s : MTState) : MTState :=
  { s with cache := load_clients s.bindings }

/-- MikrotikManager.find_client_flexible: exact key lookup on the stripped
name, then a case-insensitive scan, then a substring-containment scan. -/
def find_client_flexible (cache : List (Str × Binding)) (client_name : Str) :
    Option Binding :=
  let n := pyStrip client_name
  match dget cache n with
  | some b => some b
  | none =>
    match cache.find? (fun p => lowerStr p.1 == lowerStr n) with
    | some p => some p.2
    | none =>
      match cache.find? (fun p => containsSub (lowerStr n) (lowerStr p.1)) with
      | some p => some p.2
      | none => none

/-- MikrotikManager.find_client_in_ip_bindings: exact cache hit on the
stripped name, else the flexible search. -/
def find_client_in_ip_bindings (cache : List (Str × Binding))
    (client_name : Str) : Option Binding :=
  match dget cache (pyStrip client_name) with
  | some b => some b
  | none => find_client_flexible cache client_name

/-- MikrotikManager.find_mac_in_ip_bindings: first device binding whose
mac-address equals the target case-insensitively. -/
def find_mac_in_ip_bindings (bs : List Binding) (mac_address : Str) :
    Option Binding :=
  bs.find? (fun b => lowerStr b.mac == lowerStr mac_address)

/-- The reserved comment marker of a disposable placeholder binding. -/
def unauthorizedMarker : Str := "ZZZZ=Blocked unauthorized".data

/-- MikrotikManager.is_unauthorized_user: empty comments are authorized,
otherwise test the literal marker at the start of the comment. -/
def is_unauthorized_user (comment : Str) : Bool :=
  !(comment == []) && startsWith unauthorizedMarker comment

/-- Device remove(id) on the binding list. -/
def delete_binding (bs : List Binding) (i : Nat) : List Binding :=
  bs.filter (fun b => !(b.bid == i))

/-- Device set(id, type=t) on the binding list. -/
def set_type (bs : List Binding) (i : Nat) (t : Str) : List Binding :=
  bs.map (fun b => if b.bid == i then { b with btype := t } else b)

/-- Device set(id, mac-address=m) on the binding list. -/
def set_mac (bs : List Binding) (i : Nat) (m : Str) : List Binding :=
  bs.map (fun b => if b.bid == i then { b with mac := m } else b)

/-- Device set(id, mac-address=m, type=t) on the binding list. -/
def set_mac_type (bs : List Binding) (i : Nat) (m t : Str) : List Binding :=
  bs.map (fun b => if b.bid == i then { b with mac := m, btype := t } else b)

/-- Device set(id, comment=c) on the binding list. -/
def set_comment (bs : List Binding) (i : Nat) (c : Str) : List Binding :=
  bs.map (fun b => if b.bid == i then { b with comment := c } else b)

/-- Lookup of a device binding by id. -/
def getBinding (bs : List Binding) (i : Nat) : Option Binding :=
  bs.find? (fun b => b.bid == i)

/-- Modelling of the device assigning an id to a newly added binding:
one more than the largest id in use. -/
def freshId (bs : List Binding) : Nat :=
  (bs.foldl (fun a b => max a b.bid) 0) + 1

/-- MikrotikManager.block_client: resolve the name through the cache and
set the binding type to blocked; the cache itself is not touched. -/
def block_client (s : MTState) (client_name : Str) : Bool × MTState :=
  match find_client_in_ip_bindings s.cache client_name with
  | some b => (true, { s with bindings := set_type s.bindings b.bid "blocked".data })
  | none => (false, s)

/-- MikrotikManager.activate_client: resolve the name through the cache and
set the binding type to bypassed; the cache itself is not touched. -/
def activate_client (s : MTState) (client_name : Str) : Bool × MTState :=
  match find_client_in_ip_bindings s.cache client_name with
  | some b => (true, { s with bindings := set_type s.bindings b.bid "bypassed".data })
  | none => (false, s)

/-- MikrotikManager.is_ip_address: four dot-separated groups of one to
three digits, each at most 255. -/
def is_ip_address (identifier : Str) : Bool :=
  match splitAll '.' identifier with
  | [a, b, c, d] =>
    (a.length ≥ 1 && a.length ≤ 3 && a.all Char.isDigit && digitsVal a ≤ 255) &&
    (b.length ≥ 1 && b.length ≤ 3 && b.all Char.isDigit && digitsVal b ≤ 255) &&
    (c.length ≥ 1 && c.length ≤ 3 && c.all Char.isDigit && digitsVal c ≤ 255) &&
    (d.length ≥ 1 && d.length ≤ 3 && d.all Char.isDigit && digitsVal d ≤ 255)
  | _ => false

/-- MikrotikManager.find_mac_by_ip: first DHCP lease with an exact address
match and a non-empty mac, else the same scan over the ARP table. -/
def find_mac_by_ip (s : MTState) (ip_address : Str) : Option Str :=
  match s.leases.find? (fun l => l.1 == ip_address && !(l.2 == [])) with
  | some l => some l.2
  | none =>
    match s.arps.find? (fun a => a.1 == ip_address && !(a.2 == [])) with
    | some a => some a.2
    | none => none

/-- The tail of MikrotikManager.add_new_client after all checks have
passed: add a bypassed binding carrying the client name as its comment and
rebuild the cache. -/
def add_binding_core (s : MTState) (client_name mac : Str) :
    (Bool × Option Str) × MTState :=
  let nb : Binding :=
    { bid := freshId s.bindings, mac := mac,
      btype := "bypassed".data, comment := client_name }
  ((true, none), refresh { s with bindings := s.bindings ++ [nb] })

/-- MikrotikManager.add_new_client: fail when the name already resolves;
resolve an IP input to a MAC through leases; if the MAC is already bound,
delete the binding when it is an unauthorized placeholder (refreshing the
cache) and proceed, else fail with Already-Exists; finally add the binding. -/
def add_new_client (s : MTState) (client_name mac_or_ip : Str) :
    (Bool × Option Str) × MTState :=
  match find_client_in_ip_bindings s.cache client_name with
  | some _ => ((false, some "Already-Exists".data), s)
  | none =>
    match (if is_ip_address mac_or_ip then find_mac_by_ip s mac_or_ip
           else some mac_or_ip) with
    | none => ((false, some "IP-Not-Found".data), s)
    | some mac =>
      match find_mac_in_ip_bindings s.bindings mac with
      | some eb =>
        if is_unauthorized_user eb.comment then
          add_binding_core
            (refresh { s with bindings := delete_binding s.bindings eb.bid })
            client_name mac
        else ((false, some "Already-Exists".data), s)
      | none => add_binding_core s client_name mac

/-- The tail of MikrotikManager.update_client_mac after all checks have
passed: write the new MAC, also flipping a blocked record to bypassed, and
rebuild the cache.  The blocked test reads the record resolved from the
cache at the start of the call. -/
def update_mac_core (s : MTState) (ex : Binding) (mac : Str) :
    (Bool × Option Str) × MTState :=
  let bs :=
    if ex.btype = "blocked".data then
      set_mac_type s.bindings ex.bid mac "bypassed".data
    else set_mac s.bindings ex.bid mac
  ((true, none), refresh { s with bindings := bs })

/-- MikrotikManager.update_client_mac: fail when the name does not resolve;
resolve an IP input to a MAC; if the first binding holding the MAC is a
different record, delete it when unauthorized (refreshing the cache) and
proceed, else fail with Already-Exists; finally update the record. -/
def update_client_mac (s : MTState) (client_name mac_or_ip : Str) :
    (Bool × Option Str) × MTState :=
  match find_client_in_ip_bindings s.cache client_name with
  | none => ((false, some "Client-Not-Found".data), s)
  | some ex =>
    match (if is_ip_address mac_or_ip then find_mac_by_ip s mac_or_ip
           else some mac_or_ip) with
    | none => ((false, some "IP-Not-Found".data), s)
    | some mac =>
      match find_mac_in_ip_bindings s.bindings mac with
      | some eb =>
        if eb.bid ≠ ex.bid then
          if is_unauthorized_user eb.comment then
            update_mac_core
              (refresh { s with bindings := delete_binding s.bindings eb.bid })
              ex mac
          else ((false, some "Already-Exists".data), s)
        else update_mac_core s ex mac
      | none => update_mac_core s ex mac

/-- MikrotikManager.update_client_name: rewrite the comment, keeping the
part after the first occurrence of the separator when present, falling
back to a bare at-sign split, else replacing the whole comment; then
rebuild the cache. -/
def update_client_name (s : MTState) (client_name new_name : Str) :
    (Bool × Option Str) × MTState :=
  match find_client_in_ip_bindings s.cache client_name with
  | none => ((false, some "Client-Not-Found".data), s)
  | some ex =>
    if ex.comment = [] then ((false, some "No-Comment".data), s)
    else
      let new_comment :=
        match splitFirst sepAt ex.comment with
        | some (_, post) => pyStrip new_name ++ sepAt ++ post
        | none =>
          match splitFirst atOnly ex.comment with
          | some (_, post) => pyStrip new_name ++ sepAt ++ post
          | none => pyStrip new_name
      ((true, none),
       refresh { s with bindings := set_comment s.bindings ex.bid new_comment })

/-- MikrotikManager.update_client_phone: rewrite the comment, keeping the
part before the first occurrence of the separator when present, falling
back to a bare at-sign split, else appending the separator and the phone;
then rebuild the cache. -/
def update_client_phone (s : MTState) (client_name new_phone : Str) :
    (Bool × Option Str) × MTState :=
  match find_client_in_ip_bindings s.cache client_name with
  | none => ((false, some "Client-Not-Found".data), s)
  | some ex =>
    if ex.comment = [] then ((false, some "No-Comment".data), s)
    else
      let new_comment :=
        match splitFirst sepAt ex.comment with
        | some (pre, _) => pre ++ sepAt ++ pyStrip new_phone
        | none =>
          match splitFirst atOnly ex.comment with
          | some (pre, _) => pre ++ sepAt ++ pyStrip new_phone
          | none => ex.comment ++ sepAt ++ pyStrip new_phone
      ((true, none),
       refresh { s with bindings := set_comment s.bindings ex.bid new_comment })

/-- The comment-level phone extraction of MikrotikManager.get_client_phone:
the stripped text after the first separator, with the bare at-sign
fallback, empty when no at-sign occurs. -/
def get_phone_from_comment (comment : Str) : Str :=
  match splitFirst sepAt comment with
  | some (_, post) => pyStrip post
  | none =>
    match splitFirst atOnly comment with
    | some (_, post) => pyStrip post
    | none => []

/-- MikrotikManager.get_client_phone: resolve the client and extract the
phone from its comment; empty when the client is not found. -/
def get_client_phone (cache : List (Str × Binding)) (client_name : Str) : Str :=
  match find_client_in_ip_bindings cache client_name with
  | some b => get_phone_from_comment b.comment
  | none => []

/-- A calendar date (year, month, day), as compared by Python date
objects. -/
structure PyDate where
  y : Nat
  m : Nat
  d : Nat
deriving DecidableEq

/-- Gregorian leap year rule (as implemented by Python datetime). -/
def leapYear (y : Nat) : Bool := (y % 4 == 0 && !(y % 100 == 0)) || y % 400 == 0

/-- Days in a month (as validated by the Python datetime constructor). -/
def daysInMonth (y m : Nat) : Nat :=
  if m == 2 then (if leapYear y then 29 else 28)
  else if m == 4 || m == 6 || m == 9 || m == 11 then 30
  else 31

/-- The validity check of the Python datetime constructor: year in
1..9999, month in 1..12, day in 1..days-of-that-month. -/
def validDate (y m d : Nat) : Bool :=
  1 ≤ y && y ≤ 9999 && 1 ≤ m && m ≤ 12 && 1 ≤ d && d ≤ daysInMonth y m

/-- Strict order on calendar dates (Python date comparison). -/
def dateLt (a b : PyDate) : Bool :=
  a.y < b.y || (a.y == b.y && (a.m < b.m || (a.m == b.m && a.d < b.d)))

/-- MikrotikManager.is_date_in_future: split the string at dashes into
exactly day, month and year, convert each with int(), build a datetime
(which validates the ranges), and compare date-only against today; any
failure yields false.  Today is passed explicitly. -/
def is_date_in_future (today : PyDate) (block_date : Str) : Bool :=
  match splitAll '-' block_date with
  | [ds, ms, ys] =>
    match pyIntOfStr ds, pyIntOfStr ms, pyIntOfStr ys with
    | some d, some m, some y => validDate y m d && dateLt today ⟨y, m, d⟩
    | _, _, _ => false
  | _ => false

/-- MikrotikManager.schedule_block_client: reject a date not strictly in
the future; otherwise delete any schedule already keyed by this client
name and add the new one.  The device-side script payload and the date
reformatting are not modelled: no claim depends on them. -/
def schedule_block_client (today : PyDate) (s : MTState)
    (client_name _mac_address block_date : Str) : Bool × MTState :=
  if !is_date_in_future today block_date then (false, s)
  else
    let s1 :=
      if (s.scheds.find? (fun p => p.1 == client_name)).isSome then
        { s with scheds := s.scheds.filter (fun p => !(p.1 == client_name)) }
      else s
    (true, { s1 with scheds := s1.scheds ++ [(client_name, block_date)] })

/-- The label written back on success: status.split('=')[1], the text
between the first and second equals sign of the status cell. -/
def labelAfterEq (status : Str) : Str :=
  match splitAll '=' status with
  | _ :: l :: _ => l
  | _ => []

/-- The NOT-PAY display aliasing of sheet_sync.process_client: a label
equal to NOT-PAY case-insensitively is written as Not Pay. -/
def aliasNotPay (l : Str) : Str :=
  if upperStr l == "NOT-PAY".data then "Not Pay".data else l

/-- Status written back after a successful NEW= command
(sheet_sync.process_client, NEW= branch). -/
def new_success_status (status : Str) : Str := aliasNotPay (labelAfterEq status)

/-- Status written back after a successful UPD-MAC= command
(sheet_sync.process_client, UPD-MAC= branch). -/
def upd_mac_success_status (status : Str) : Str := aliasNotPay (labelAfterEq status)

/-- Status written back after a successful ACTIVATE= command; both the
already-active and the freshly-activated paths compute the same label
(sheet_sync.process_client, ACTIVATE= branch). -/
def activate_success_status (status : Str) : Str := aliasNotPay (labelAfterEq status)

/-- Status written back after a successful LIMIT= command
(sheet_sync.process_client, LIMIT= branch): no aliasing is applied there. -/
def limit_success_status (status : Str) : Str := labelAfterEq status

/-- sheet_sync.get_column_letter: the bijective base-26 column name, built
by repeatedly prepending the digit for index mod 26 and continuing with
index div 26 minus one while the index is non-negative. -/
def get_column_letter (n : Nat) : Str :=
  if _h : n < 26 then [Char.ofNat (65 + n)]
  else get_column_letter (n / 26 - 1) ++ [Char.ofNat (65 + n % 26)]
termination_by n
decreasing_by
  have h26 : n / 26 < n := Nat.div_lt_self (by omega) (by omega)
  omega

/-- Numeric value of a bijective base-26 column name; inverse of
get_column_letter on its image. -/
def colVal (s : Str) : Int :=
  s.foldl (fun a c => (a + 1) * 26 + ((c.toNat : Int) - 65)) (-1)

/-- The last device binding in scan order with a non-empty comment whose
derived name is k.  Written from the amended reading of the spec sentence
on key collisions, to be compared with the directory built by
load_clients. -/
def lastMatch (bs : List Binding) (k : Str) : Option Binding :=
  bs.reverse.find? (fun b => !(b.comment == []) && extract_client_name b.comment == k)

/-- Sample bindings and states used by concrete witnesses and
counterexamples. -/
def smp7 : Binding := ⟨1, "AA".data, "bypassed".data, "a@b".data⟩

def st7 : MTState := ⟨[smp7], load_clients [smp7], [], [], []⟩

def smp7w : Binding := ⟨1, "AA".data, "bypassed".data, "bob @123".data⟩

def st7w : MTState := ⟨[smp7w], load_clients [smp7w], [], [], []⟩

theorem lem_splitFirst_none_cons (pat : Str) (c : Char) (rest : Str) :
    splitFirst pat (c :: rest) = none ↔
      startsWith pat (c :: rest) = false ∧ splitFirst pat rest = none := by
  by_cases hs : startsWith pat (c :: rest) = true
  · simp [splitFirst, hs]
  · have hs' : startsWith pat (c :: rest) = false := by simpa using hs
    cases hr : splitFirst pat rest with
    | none => simp [splitFirst, hs', hr]
    | some pr => cases pr with | mk a b => simp [splitFirst, hs', hr]

theorem lem_startsWith_sep_extend (c : Char) (name rest : Str)
    (h : startsWith sepAt (c :: name) = false) :
    startsWith sepAt (c :: (name ++ ' ' :: '@' :: rest)) = false := by
  cases name with
  | nil => simp [startsWith, sepAt]
  | cons d t =>
    simp only [startsWith, sepAt, List.cons_append] at h ⊢
    simpa using h

theorem lem_splitFirst_sep_append (name rest : Str)
    (h : splitFirst sepAt name = none) :
    splitFirst sepAt (name ++ ' ' :: '@' :: rest) = some (name, rest) := by
  induction name with
  | nil => simp [splitFirst, startsWith, sepAt]
  | cons c t ih =>
    rw [lem_splitFirst_none_cons] at h
    have h1 := lem_startsWith_sep_extend c t rest h.1
    have h2 := ih h.2
    simp only [List.cons_append]
    simp [splitFirst, h1, h2]

theorem lem_splitFirst_at_none (c : Str) (h : splitFirst atOnly c = none) :
    splitFirst sepAt c = none := by
  induction c with
  | nil => rfl
  | cons ch rest ih =>
    rw [lem_splitFirst_none_cons] at h ⊢
    refine ⟨?_, ih h.2⟩
    cases rest with
    | nil => simp [startsWith, sepAt]
    | cons d t =>
      have h2 := (lem_splitFirst_none_cons atOnly d t).mp h.2
      have hd : ('@' == d) = false := by simpa [startsWith, atOnly] using h2.1
      simp [startsWith, sepAt, hd]

/-- C8 (corrected): for comments name @phone in which the name contains no
separator occurrence and neither half carries leading or trailing
whitespace, extracting the name and the phone with the engine's extraction
functions and rejoining them with the canonical separator reproduces the
original comment exactly. -/
theorem claim_C8 (name phone : Str)
    (h1 : splitFirst sepAt name = none)
    (h2 : pyStrip name = name) (h3 : pyStrip phone = phone) :
    extract_client_name (name ++ (sepAt ++ phone)) = name ∧
    get_phone_from_comment (name ++ (sepAt ++ phone)) = phone ∧
    extract_client_name (name ++ (sepAt ++ phone)) ++
      (sepAt ++ get_phone_from_comment (name ++ (sepAt ++ phone))) =
      name ++ (sepAt ++ phone) := by
  have hsp : splitFirst sepAt (name ++ (sepAt ++ phone)) = some (name, phone) :=
    lem_splitFirst_sep_append name phone h1
  have hx : extract_client_name (name ++ (sepAt ++ phone)) = name := by
    simp [extract_client_name, hsp, h2]
  have hp : get_phone_from_comment (name ++ (sepAt ++ phone)) = phone := by
    simp [get_phone_from_comment, hsp, h3]
  exact ⟨hx, hp, by rw [hx, hp]⟩

/-- Witness for C8 at name bob, phone 123. -/
theorem claim_C8_witness :
    extract_client_name ("bob".data ++ (sepAt ++ "123".data)) = "bob".data ∧
    get_phone_from_comment ("bob".data ++ (sepAt ++ "123".data)) = "123".data ∧
    extract_client_name ("bob".data ++ (sepAt ++ "123".data)) ++
      (sepAt ++ get_phone_from_comment ("bob".data ++ (sepAt ++ "123".data))) =
      "bob".data ++ (sepAt ++ "123".data) :=
  claim_C8 "bob".data "123".data (by decide) (by decide) (by decide)

/-- Counterexample for C8 as stated: the comment built from name a-space
and phone 1 is of the form name @phone, but extraction strips the name, so
rejoining does not reproduce the original comment. -/
theorem claim_C8_counterexample :
    "a ".data ++ sepAt ++ "1".data = "a  @1".data ∧
    extract_client_name "a  @1".data ++ sepAt ++
      get_phone_from_comment "a  @1".data ≠ "a  @1".data := by
  constructor
  · decide
  · decide

/-- C7 (amended): for a record whose comment contains the separator
space-then-at, RenameClient rewrites only the name half, keeping the text
after the first separator byte-for-byte, and RenamePhone rewrites only the
phone half, keeping the text before the first separator byte-for-byte;
when the comment contains no at-sign at all, RenamePhone appends the
separator and the new phone to the unchanged comment.  (A comment with an
at-sign but no space-then-at has no phone segment per the data model, yet
the code splits at the bare at-sign instead of appending.) -/
theorem claim_C7 :
    (∀ (s : MTState) (name newName : Str) (ex : Binding) (pre post : Str),
       find_client_in_ip_bindings s.cache name = some ex →
       splitFirst sepAt ex.comment = some (pre, post) →
       (update_client_name s name newName).1 = (true, none) ∧
       (update_client_name s name newName).2.bindings =
         set_comment s.bindings ex.bid (pyStrip newName ++ sepAt ++ post)) ∧
    (∀ (s : MTState) (name newPhone : Str) (ex : Binding) (pre post : Str),
       find_client_in_ip_bindings s.cache name = some ex →
       splitFirst sepAt ex.comment = some (pre, post) →
       (update_client_phone s name newPhone).1 = (true, none) ∧
       (update_client_phone s name newPhone).2.bindings =
         set_comment s.bindings ex.bid (pre ++ sepAt ++ pyStrip newPhone)) ∧
    (∀ (s : MTState) (name newPhone : Str) (ex : Binding),
       find_client_in_ip_bindings s.cache name = some ex →
       ex.comment ≠ [] →
       splitFirst atOnly ex.comment = none →
       (update_client_phone s name newPhone).1 = (true, none) ∧
       (update_client_phone s name newPhone).2.bindings =
         set_comment s.bindings ex.bid (ex.comment ++ sepAt ++ pyStrip newPhone)) := by
  refine ⟨?_, ?_, ?_⟩
  · intro s name newName ex pre post hfc hsp
    have hne : ex.comment ≠ [] := by
      intro h
      rw [h] at hsp
      simp [splitFirst, startsWith, sepAt] at hsp
    simp [update_client_name, hfc, hne, hsp, refresh]
  · intro s name newPhone ex pre post hfc hsp
    have hne : ex.comment ≠ [] := by
      intro h
      rw [h] at hsp
      simp [splitFirst, startsWith, sepAt] at hsp
    simp [update_client_phone, hfc, hne, hsp, refresh]
  · intro s name newPhone ex hfc hne hat
    have hsp := lem_splitFirst_at_none ex.comment hat
    simp [update_client_phone, hfc, hne, hsp, hat, refresh]

/-- Witness for C7: renaming client bob (comment bob @123) to rob keeps
the phone text 123 byte-for-byte. -/
theorem claim_C7_witness :
    (update_client_name st7w "bob".data "rob".data).1 = (true, none) ∧
    (update_client_name st7w "bob".data "rob".data).2.bindings =
      set_comment st7w.bindings 1 (pyStrip "rob".data ++ sepAt ++ "123".data) :=
  claim_C7.1 st7w "bob".data "rob".data smp7w "bob".data "123".data
    (by decide) (by decide)

/-- Counterexample for C7 as stated: the comment a-at-b contains an
at-sign but not the separator space-then-at, so it has no phone segment,
yet RenamePhone does not append: it splits at the bare at-sign and
produces a-space-at-7 instead of keeping the whole comment. -/
theorem claim_C7_counterexample :
    splitFirst sepAt "a@b".data = none ∧
    getBinding (update_client_phone st7 "a@b".data "7".data).2.bindings 1 =
      some ⟨1, "AA".data, "bypassed".data, "a @7".data⟩ ∧
    "a @7".data ≠ "a@b".data ++ sepAt ++ pyStrip "7".data := by
  refine ⟨by decide, by decide, by decide⟩


theorem lem_find_singleton (p : Str × Binding → Bool)
    (x : Str × Binding) :
    List.find? p [x] = if p x then some x else none := by
  cases hp : p x with
  | true =>
    rw [List.find?_cons_of_pos _ hp]
    simp
  | false =>
    have hn : ¬ p x = true := by simp [hp]
    rw [List.find?_cons_of_neg _ hn]
    simp

theorem lem_findB_singleton (p : Binding → Bool) (x : Binding) :
    List.find? p [x] = if p x then some x else none := by
  cases hp : p x with
  | true =>
    rw [List.find?_cons_of_pos _ hp]
    simp
  | false =>
    have hn : ¬ p x = true := by simp [hp]
    rw [List.find?_cons_of_neg _ hn]
    simp

theorem lem_find_map_hit (k : Str) (v : Binding) :
    ∀ d : List (Str × Binding), d.any (fun p => p.1 == k) = true →
      List.find? (fun p => p.1 == k)
        (d.map (fun p => if p.1 == k then (p.1, v) else p)) = some (k, v) := by
  intro d
  induction d with
  | nil => intro h; simp at h
  | cons p t ih =>
    intro h
    rw [List.map_cons]
    by_cases hp : p.1 = k
    · rw [if_pos (by simpa using hp)]
      rw [List.find?_cons_of_pos _ (by simp [hp])]
      rw [hp]
    · rw [if_neg (by simpa using hp)]
      rw [List.find?_cons_of_neg _ (by simp [hp])]
      apply ih
      rcases List.any_eq_true.mp h with ⟨x, hx, hpx⟩
      rcases List.mem_cons.mp hx with he | hxt
      · rw [he] at hpx
        exact absurd (by simpa using hpx) hp
      · exact List.any_eq_true.mpr ⟨x, hxt, hpx⟩

theorem lem_find_map_miss (k k' : Str) (v : Binding) (h : k' ≠ k) :
    ∀ d : List (Str × Binding),
      List.find? (fun p => p.1 == k')
        (d.map (fun p => if p.1 == k then (p.1, v) else p)) =
      List.find? (fun p => p.1 == k') d := by
  intro d
  induction d with
  | nil => rfl
  | cons p t ih =>
    rw [List.map_cons]
    by_cases hp : p.1 = k
    · rw [if_pos (by simpa using hp)]
      rw [List.find?_cons_of_neg _ (by simp [hp, Ne.symm h])]
      rw [List.find?_cons_of_neg _ (by simp [hp, Ne.symm h])]
      exact ih
    · rw [if_neg (by simpa using hp)]
      by_cases hq : p.1 = k'
      · rw [List.find?_cons_of_pos _ (by simp [hq]),
            List.find?_cons_of_pos _ (by simp [hq])]
      · rw [List.find?_cons_of_neg _ (by simp [hq]),
            List.find?_cons_of_neg _ (by simp [hq])]
        exact ih

theorem lem_dget_dinsert (d : List (Str × Binding)) (k : Str) (v : Binding)
    (k' : Str) :
    dget (dinsert d k v) k' = if k' = k then some v else dget d k' := by
  by_cases hany : d.any (fun p => p.1 == k) = true
  · rw [dinsert, if_pos hany]
    by_cases hk : k' = k
    · rw [if_pos hk]
      subst hk
      rw [dget, lem_find_map_hit k' v d hany]
      rfl
    · rw [if_neg hk, dget, dget, lem_find_map_miss k k' v hk d]
  · have hany2 : d.any (fun p => p.1 == k) = false := by
      cases ha : d.any (fun p => p.1 == k) with
      | true => exact absurd ha hany
      | false => rfl
    rw [dinsert, if_neg hany]
    by_cases hk : k' = k
    · subst hk
      have hnone : List.find? (fun p => p.1 == k') d = none := by
        rw [List.find?_eq_none]
        intro p hp
        have := List.any_eq_false.mp hany2 p hp
        simpa using this
      rw [if_pos rfl, dget, List.find?_append, hnone, Option.none_or]
      rw [lem_find_singleton]
      rw [if_pos (by simp)]
      rfl
    · rw [if_neg hk, dget, dget, List.find?_append, lem_find_singleton]
      rw [if_neg (by simp [Ne.symm hk])]
      rw [Option.or_none]

/-- The per-binding filter of lastMatch as a reusable predicate. -/
theorem lem_dget_loadStep (d : List (Str × Binding)) (b : Binding) (k : Str) :
    dget (loadStep d b) k =
      (List.find?
        (fun x => !(x.comment == []) && (extract_client_name x.comment == k))
        [b]).or (dget d k) := by
  rw [lem_findB_singleton]
  by_cases hc : b.comment = []
  · rw [loadStep, if_pos (by simpa using hc)]
    rw [if_neg (by simp [hc])]
    rw [Option.none_or]
  · rw [loadStep, if_neg (by simpa using hc)]
    rw [lem_dget_dinsert]
    by_cases hk : extract_client_name b.comment = k
    · rw [if_pos (show k = extract_client_name b.comment from hk.symm)]
      rw [if_pos (show (!(b.comment == []) &&
            (extract_client_name b.comment == k)) = true by simp [hc, hk])]
      rfl
    · rw [if_neg (show ¬ k = extract_client_name b.comment from
            fun he => hk he.symm)]
      rw [if_neg (show ¬ (!(b.comment == []) &&
            (extract_client_name b.comment == k)) = true by simp [hk])]
      rw [Option.none_or]

theorem lem_lastMatch_cons (b : Binding) (bs : List Binding) (k : Str) :
    lastMatch (b :: bs) k =
      (lastMatch bs k).or
        (List.find?
          (fun x => !(x.comment == []) && (extract_client_name x.comment == k))
          [b]) := by
  simp only [lastMatch, List.reverse_cons, List.find?_append]

theorem lem_dget_load_aux (bs : List Binding) :
    ∀ (d : List (Str × Binding)) (k : Str),
      dget (List.foldl loadStep d bs) k = (lastMatch bs k).or (dget d k) := by
  induction bs with
  | nil =>
    intro d k
    simp [lastMatch, Option.none_or]
  | cons b t ih =>
    intro d k
    rw [List.foldl_cons, ih, lem_dget_loadStep, lem_lastMatch_cons,
        Option.or_assoc]

/-- C2 (amended): when several bindings derive the same client name, the
directory maps the name to the last such binding encountered in scan
order, not the first: dict assignment overwrites the value on key
collision. -/
theorem claim_C2 (bs : List Binding) (k : Str) :
    dget (load_clients bs) k = lastMatch bs k := by
  rw [load_clients, lem_dget_load_aux bs [] k]
  rw [show dget [] k = none from rfl, Option.or_none]

/-- Counterexample for C2 as stated: two bindings whose comments derive
the same name A; the directory maps A to the second (last-seen) binding,
not to the first one encountered in scan order. -/
theorem claim_C2_counterexample :
    extract_client_name ("A @1".data) = extract_client_name ("A @2".data) ∧
    dget (load_clients
        [⟨1, "AA".data, "bypassed".data, "A @1".data⟩,
         ⟨2, "BB".data, "bypassed".data, "A @2".data⟩]) "A".data =
      some ⟨2, "BB".data, "bypassed".data, "A @2".data⟩ ∧
    dget (load_clients
        [⟨1, "AA".data, "bypassed".data, "A @1".data⟩,
         ⟨2, "BB".data, "bypassed".data, "A @2".data⟩]) "A".data ≠
      some ⟨1, "AA".data, "bypassed".data, "A @1".data⟩ := by
  refine ⟨by decide, by decide, by decide⟩

theorem lem_mem_dinsert (d : List (Str × Binding)) (k : Str) (v : Binding)
    (p : Str × Binding) (h : p ∈ dinsert d k v) :
    p ∈ d ∨ p = (k, v) := by
  by_cases hany : d.any (fun q => q.1 == k) = true
  · rw [dinsert, if_pos hany] at h
    rcases List.mem_map.mp h with ⟨q, hq, he⟩
    by_cases hqk : q.1 = k
    · right
      rw [← he, if_pos (by simpa using hqk), hqk]
    · left
      rw [← he, if_neg (by simpa using hqk)]
      exact hq
  · rw [dinsert, if_neg hany] at h
    rcases List.mem_append.mp h with hd | hs
    · exact Or.inl hd
    · right
      simpa using hs

theorem lem_mem_load_aux (bs : List Binding) :
    ∀ (d : List (Str × Binding)) (p : Str × Binding),
      p ∈ List.foldl loadStep d bs →
      p ∈ d ∨ (p.2 ∈ bs ∧ p.2.comment ≠ []) := by
  induction bs with
  | nil => intro d p h; exact Or.inl h
  | cons b t ih =>
    intro d p h
    rw [List.foldl_cons] at h
    rcases ih (loadStep d b) p h with hd | ⟨hm, hc⟩
    · by_cases hc : b.comment = []
      · rw [loadStep, if_pos (by simpa using hc)] at hd
        exact Or.inl hd
      · rw [loadStep, if_neg (by simpa using hc)] at hd
        rcases lem_mem_dinsert _ _ _ _ hd with hd2 | he
        · exact Or.inl hd2
        · right
          rw [he]
          exact ⟨List.mem_cons_self b t, hc⟩
    · exact Or.inr ⟨List.mem_cons_of_mem b hm, hc⟩

theorem lem_find_client_mem (c : List (Str × Binding)) (name : Str)
    (b : Binding) (h : find_client_in_ip_bindings c name = some b) :
    ∃ k, (k, b) ∈ c := by
  have hdget : ∀ k0, dget c k0 = some b → ∃ k, (k, b) ∈ c := by
    intro k0 hd
    rw [dget] at hd
    cases hf : c.find? (fun p => p.1 == k0) with
    | none => rw [hf] at hd; simp at hd
    | some p =>
      rw [hf] at hd
      simp at hd
      refine ⟨p.1, ?_⟩
      rw [← hd]
      simpa using List.mem_of_find?_eq_some hf
  have hfindp : ∀ (f : Str × Binding → Bool) (p : Str × Binding),
      c.find? f = some p → ∃ k, (k, p.2) ∈ c := by
    intro f p hf
    exact ⟨p.1, List.mem_of_find?_eq_some hf⟩
  rw [find_client_in_ip_bindings] at h
  cases h1 : dget c (pyStrip name) with
  | some b1 =>
    rw [h1] at h
    simp at h
    exact hdget _ (by rw [h1, h])
  | none =>
    rw [h1] at h
    simp only [] at h
    simp only [find_client_flexible] at h
    rw [h1] at h
    simp only [] at h
    cases h3 : c.find? (fun p => lowerStr p.1 == lowerStr (pyStrip name)) with
    | some p =>
      rw [h3] at h
      simp at h
      rcases hfindp _ _ h3 with ⟨k, hk⟩
      exact ⟨k, by rwa [h] at hk⟩
    | none =>
      rw [h3] at h
      cases h4 : c.find?
          (fun p => containsSub (lowerStr (pyStrip name)) (lowerStr p.1)) with
      | some p =>
        rw [h4] at h
        simp at h
        rcases hfindp _ _ h4 with ⟨k, hk⟩
        exact ⟨k, by rwa [h] at hk⟩
      | none => rw [h4] at h; simp at h

/-- C9: every directory entry comes from a device binding with a non-empty
comment, and consequently any binding the by-name lookup returns over a
freshly loaded directory is a device binding with a non-empty comment, so
a binding with an empty comment can never be found (hence never blocked,
activated or renamed) by client name. -/
theorem claim_C9 :
    (∀ (bs : List Binding) (k : Str) (b : Binding),
       (k, b) ∈ load_clients bs → b ∈ bs ∧ b.comment ≠ []) ∧
    (∀ (bs : List Binding) (name : Str) (b : Binding),
       find_client_in_ip_bindings (load_clients bs) name = some b →
       b ∈ bs ∧ b.comment ≠ []) := by
  have h1 : ∀ (bs : List Binding) (k : Str) (b : Binding),
      (k, b) ∈ load_clients bs → b ∈ bs ∧ b.comment ≠ [] := by
    intro bs k b h
    rcases lem_mem_load_aux bs [] (k, b) h with hd | hok
    · simp at hd
    · exact hok
  refine ⟨h1, ?_⟩
  intro bs name b h
  rcases lem_find_client_mem _ _ _ h with ⟨k, hk⟩
  exact h1 bs k b hk

/-- Witness for C9 at a one-binding device list. -/
theorem claim_C9_witness :
    (⟨1, "AA".data, "bypassed".data, "bob @1".data⟩ : Binding) ∈
      [(⟨1, "AA".data, "bypassed".data, "bob @1".data⟩ : Binding)] ∧
    (⟨1, "AA".data, "bypassed".data, "bob @1".data⟩ : Binding).comment ≠ [] :=
  claim_C9.1 [⟨1, "AA".data, "bypassed".data, "bob @1".data⟩] "bob".data
    ⟨1, "AA".data, "bypassed".data, "bob @1".data⟩ (by decide)

theorem lem_splitAll_no_sep (sep : Char) :
    ∀ a : Str, a.all (fun c => !(c == sep)) = true → splitAll sep a = [a] := by
  intro a
  induction a with
  | nil => intro h; rfl
  | cons c t ih =>
    intro h
    rw [List.all_cons] at h
    have hc : ¬ c = sep := by
      intro he
      rw [he] at h
      simp at h
    have ht := ih ((Bool.and_eq_true _ _).mp h).2
    rw [splitAll, if_neg (by simpa using hc), ht]

theorem lem_splitAll_append (sep : Char) :
    ∀ (a rest : Str), a.all (fun c => !(c == sep)) = true →
      splitAll sep (a ++ sep :: rest) = a :: splitAll sep rest := by
  intro a
  induction a with
  | nil =>
    intro rest _
    rw [List.nil_append, splitAll, if_pos (by simp)]
  | cons c t ih =>
    intro rest h
    rw [List.all_cons] at h
    obtain ⟨h1, h2⟩ := (Bool.and_eq_true _ _).mp h
    have hc : ¬ c = sep := by
      intro he
      rw [he] at h1
      simp at h1
    rw [List.cons_append, splitAll, if_neg (by simpa using hc), ih rest h2]

/-- C3 (amended): when the label after the equals sign contains no further
equals sign, a successful New, UpdateMac or Activate command writes the
label back, aliasing a label equal to NOT-PAY case-insensitively to the
display label Not Pay; a successful Limit command writes the label back
with no aliasing at all. -/
theorem claim_C3 (L : Str) (h : L.all (fun c => !(c == '=')) = true) :
    new_success_status ("NEW=".data ++ L) =
      (if upperStr L == "NOT-PAY".data then "Not Pay".data else L) ∧
    upd_mac_success_status ("UPD-MAC=".data ++ L) =
      (if upperStr L == "NOT-PAY".data then "Not Pay".data else L) ∧
    activate_success_status ("ACTIVATE=".data ++ L) =
      (if upperStr L == "NOT-PAY".data then "Not Pay".data else L) ∧
    limit_success_status ("LIMIT=".data ++ L) = L := by
  have hL := lem_splitAll_no_sep '=' L h
  have hnew : labelAfterEq ("NEW=".data ++ L) = L := by
    rw [show ("NEW=".data ++ L) = "NEW".data ++ '=' :: L from rfl]
    rw [labelAfterEq, lem_splitAll_append '=' "NEW".data L (by decide), hL]
  have hupd : labelAfterEq ("UPD-MAC=".data ++ L) = L := by
    rw [show ("UPD-MAC=".data ++ L) = "UPD-MAC".data ++ '=' :: L from rfl]
    rw [labelAfterEq, lem_splitAll_append '=' "UPD-MAC".data L (by decide), hL]
  have hact : labelAfterEq ("ACTIVATE=".data ++ L) = L := by
    rw [show ("ACTIVATE=".data ++ L) = "ACTIVATE".data ++ '=' :: L from rfl]
    rw [labelAfterEq, lem_splitAll_append '=' "ACTIVATE".data L (by decide), hL]
  have hlim : labelAfterEq ("LIMIT=".data ++ L) = L := by
    rw [show ("LIMIT=".data ++ L) = "LIMIT".data ++ '=' :: L from rfl]
    rw [labelAfterEq, lem_splitAll_append '=' "LIMIT".data L (by decide), hL]
  refine ⟨?_, ?_, ?_, ?_⟩
  · rw [new_success_status, hnew, aliasNotPay]
  · rw [upd_mac_success_status, hupd, aliasNotPay]
  · rw [activate_success_status, hact, aliasNotPay]
  · rw [limit_success_status, hlim]

/-- Witness for C3 at the label Active. -/
theorem claim_C3_witness :
    new_success_status ("NEW=".data ++ "Active".data) =
      (if upperStr "Active".data == "NOT-PAY".data then "Not Pay".data
       else "Active".data) ∧
    upd_mac_success_status ("UPD-MAC=".data ++ "Active".data) =
      (if upperStr "Active".data == "NOT-PAY".data then "Not Pay".data
       else "Active".data) ∧
    activate_success_status ("ACTIVATE=".data ++ "Active".data) =
      (if upperStr "Active".data == "NOT-PAY".data then "Not Pay".data
       else "Active".data) ∧
    limit_success_status ("LIMIT=".data ++ "Active".data) = "Active".data :=
  claim_C3 "Active".data (by decide)

/-- Counterexample for C3 as stated: a successful LIMIT=NOT-PAY command
writes back the raw label NOT-PAY, not the display label Not Pay, while
the same label under NEW= is aliased; so the aliasing does not apply to
all four commands. -/
theorem claim_C3_counterexample :
    limit_success_status "LIMIT=NOT-PAY".data = "NOT-PAY".data ∧
    new_success_status "NEW=NOT-PAY".data = "Not Pay".data ∧
    "NOT-PAY".data ≠ "Not Pay".data := by
  refine ⟨by decide, by decide, by decide⟩

theorem lem_digits_no_dash (s : Str) (h : s.all Char.isDigit = true) :
    s.all (fun c => !(c == '-')) = true := by
  rw [List.all_eq_true] at h ⊢
  intro c hc
  have hd := h c hc
  have hne : ¬ c = '-' := by
    intro he
    rw [he] at hd
    exact absurd hd (by decide)
  simpa using hne

/-- C5: a well-formed day-month-year date string is accepted by the
schedule creation exactly when the calendar date it denotes is strictly
after the current calendar date, with time of day playing no part. -/
theorem claim_C5 (today : PyDate) (s : MTState) (cname mac : Str)
    (ds ms ys : Str)
    (hd1 : ds ≠ []) (hd2 : ds.all Char.isDigit = true)
    (hm1 : ms ≠ []) (hm2 : ms.all Char.isDigit = true)
    (hy1 : ys ≠ []) (hy2 : ys.all Char.isDigit = true)
    (hv : validDate (digitsVal ys) (digitsVal ms) (digitsVal ds) = true) :
    (schedule_block_client today s cname mac
        (ds ++ '-' :: (ms ++ '-' :: ys))).1 =
      dateLt today ⟨digitsVal ys, digitsVal ms, digitsVal ds⟩ ∧
    is_date_in_future today (ds ++ '-' :: (ms ++ '-' :: ys)) =
      dateLt today ⟨digitsVal ys, digitsVal ms, digitsVal ds⟩ := by
  have hsplit : splitAll '-' (ds ++ '-' :: (ms ++ '-' :: ys)) = [ds, ms, ys] := by
    rw [lem_splitAll_append '-' ds _ (lem_digits_no_dash ds hd2),
        lem_splitAll_append '-' ms _ (lem_digits_no_dash ms hm2),
        lem_splitAll_no_sep '-' ys (lem_digits_no_dash ys hy2)]
  have hfut : is_date_in_future today (ds ++ '-' :: (ms ++ '-' :: ys)) =
      dateLt today ⟨digitsVal ys, digitsVal ms, digitsVal ds⟩ := by
    rw [is_date_in_future]
    rw [hsplit]
    simp only []
    rw [show pyIntOfStr ds = some (digitsVal ds) by
          rw [pyIntOfStr, if_pos ⟨hd1, hd2⟩]]
    rw [show pyIntOfStr ms = some (digitsVal ms) by
          rw [pyIntOfStr, if_pos ⟨hm1, hm2⟩]]
    rw [show pyIntOfStr ys = some (digitsVal ys) by
          rw [pyIntOfStr, if_pos ⟨hy1, hy2⟩]]
    simp only []
    rw [hv, Bool.true_and]
  refine ⟨?_, hfut⟩
  rw [schedule_block_client, hfut]
  cases hdl : dateLt today ⟨digitsVal ys, digitsVal ms, digitsVal ds⟩ with
  | true => rw [if_neg (by simp)]
  | false => rw [if_pos (by simp)]

/-- Witness for C5: with today fixed at 2025-10-12, the date 5-6-2026 is
accepted (and the acceptance flag equals the strict date comparison). -/
theorem claim_C5_witness :
    (schedule_block_client ⟨2025, 10, 12⟩ ⟨[], [], [], [], []⟩
        "bob".data "AA".data
        ("5".data ++ '-' :: ("6".data ++ '-' :: "2026".data))).1 =
      dateLt ⟨2025, 10, 12⟩
        ⟨digitsVal "2026".data, digitsVal "6".data, digitsVal "5".data⟩ ∧
    is_date_in_future ⟨2025, 10, 12⟩
        ("5".data ++ '-' :: ("6".data ++ '-' :: "2026".data)) =
      dateLt ⟨2025, 10, 12⟩
        ⟨digitsVal "2026".data, digitsVal "6".data, digitsVal "5".data⟩ :=
  claim_C5 ⟨2025, 10, 12⟩ ⟨[], [], [], [], []⟩ "bob".data "AA".data
    "5".data "6".data "2026".data
    (by decide) (by decide) (by decide) (by decide) (by decide) (by decide)
    (by decide)

theorem lem_char_toNat (k : Nat) (h : k < 26) :
    (Char.ofNat (65 + k)).toNat = 65 + k := by
  interval_cases k <;> decide

theorem lem_colVal_gcl (n : Nat) : colVal (get_column_letter n) = n := by
  induction n using Nat.strong_induction_on with
  | _ n ih =>
    by_cases h : n < 26
    · rw [get_column_letter, dif_pos h]
      rw [colVal]
      simp only [List.foldl_cons, List.foldl_nil]
      rw [lem_char_toNat n h]
      push_cast
      ring_nf
    · rw [get_column_letter, dif_neg h]
      have hlt : n / 26 - 1 < n := by
        have h2 : n / 26 < n := Nat.div_lt_self (by omega) (by omega)
        omega
      have ihv := ih (n / 26 - 1) hlt
      rw [colVal, List.foldl_append]
      rw [show List.foldl (fun a c => (a + 1) * 26 + ((c.toNat : Int) - 65))
            (-1) (get_column_letter (n / 26 - 1)) =
          colVal (get_column_letter (n / 26 - 1)) from rfl, ihv]
      simp only [List.foldl_cons, List.foldl_nil]
      rw [lem_char_toNat (n % 26) (Nat.mod_lt _ (by omega))]
      have h1 : 1 ≤ n / 26 := Nat.one_le_div_iff (by omega) |>.mpr (by omega)
      have hdm := Nat.div_add_mod n 26
      push_cast [h1]
      omega

/-- C10: the column-index-to-letter conversion used for write-back is the
bijective base-26 letter name (0 is A, 25 is Z, 26 is AA, 27 is AB) and is
injective over all natural-number indices, so two distinct columns are
never written to the same sheet cell. -/
theorem claim_C10 :
    (∀ m n : Nat, get_column_letter m = get_column_letter n → m = n) ∧
    get_column_letter 0 = "A".data ∧ get_column_letter 25 = "Z".data ∧
    get_column_letter 26 = "AA".data ∧ get_column_letter 27 = "AB".data := by
  refine ⟨?_, ?_, ?_, ?_, ?_⟩
  · intro m n h
    have hv := congrArg colVal h
    rw [lem_colVal_gcl, lem_colVal_gcl] at hv
    exact_mod_cast hv
  · simp [get_column_letter]
  · simp [get_column_letter]
  · simp [get_column_letter]
  · simp [get_column_letter]

/-- Witness for C10: the injectivity hypothesis discharged at index 2. -/
theorem claim_C10_witness : (2 : Nat) = 2 :=
  claim_C10.1 2 2 rfl

theorem lem_getBinding_set_mac (i : Nat) (m : Str) :
    ∀ bs : List Binding,
      getBinding (set_mac bs i m) i =
        (getBinding bs i).map (fun b => { b with mac := m }) := by
  intro bs
  induction bs with
  | nil => rfl
  | cons b t ih =>
    rw [set_mac, List.map_cons]
    by_cases hb : b.bid = i
    · rw [if_pos (by simpa using hb)]
      rw [getBinding, List.find?_cons_of_pos _ (by simp [hb])]
      rw [getBinding, List.find?_cons_of_pos _ (by simp [hb])]
      rfl
    · rw [if_neg (by simpa using hb)]
      rw [getBinding, List.find?_cons_of_neg _ (by simp [hb])]
      rw [getBinding, List.find?_cons_of_neg _ (by simp [hb])]
      exact ih

theorem lem_getBinding_set_mac_type (i : Nat) (m t0 : Str) :
    ∀ bs : List Binding,
      getBinding (set_mac_type bs i m t0) i =
        (getBinding bs i).map (fun b => { b with mac := m, btype := t0 }) := by
  intro bs
  induction bs with
  | nil => rfl
  | cons b t ih =>
    rw [set_mac_type, List.map_cons]
    by_cases hb : b.bid = i
    · rw [if_pos (by simpa using hb)]
      rw [getBinding, List.find?_cons_of_pos _ (by simp [hb])]
      rw [getBinding, List.find?_cons_of_pos _ (by simp [hb])]
      rfl
    · rw [if_neg (by simpa using hb)]
      rw [getBinding, List.find?_cons_of_neg _ (by simp [hb])]
      rw [getBinding, List.find?_cons_of_neg _ (by simp [hb])]
      exact ih

theorem lem_getBinding_delete (i j : Nat) (h : i ≠ j) :
    ∀ bs : List Binding, getBinding (delete_binding bs j) i = getBinding bs i := by
  intro bs
  induction bs with
  | nil => rfl
  | cons b t ih =>
    by_cases hb : b.bid = j
    · have hstep : delete_binding (b :: t) j = delete_binding t j := by
        rw [delete_binding, delete_binding, List.filter_cons,
            if_neg (by simp [hb])]
      rw [hstep, ih]
      symm
      rw [getBinding, List.find?_cons_of_neg _ (by simp [hb, Ne.symm h])]
      rfl
    · have hstep : delete_binding (b :: t) j = b :: delete_binding t j := by
        rw [delete_binding, delete_binding, List.filter_cons,
            if_pos (by simp [hb])]
      rw [hstep]
      by_cases hq : b.bid = i
      · rw [getBinding, List.find?_cons_of_pos _ (by simp [hq])]
        symm
        rw [getBinding, List.find?_cons_of_pos _ (by simp [hq])]
      · rw [getBinding, List.find?_cons_of_neg _ (by simp [hq])]
        rw [show List.find? (fun x => x.bid == i) (delete_binding t j) =
              getBinding (delete_binding t j) i from rfl, ih]
        symm
        rw [getBinding, List.find?_cons_of_neg _ (by simp [hq])]
        rfl

theorem lem_getBinding_upd_core (s : MTState) (ex : Binding) (mac : Str)
    (hdev : getBinding s.bindings ex.bid = some ex) :
    getBinding (update_mac_core s ex mac).2.bindings ex.bid =
      some { ex with mac := mac,
                     btype := if ex.btype = "blocked".data then "bypassed".data
                              else ex.btype } := by
  rw [update_mac_core]
  by_cases hb : ex.btype = "blocked".data
  · simp only [if_pos hb, refresh]
    rw [lem_getBinding_set_mac_type, hdev]
    rfl
  · simp only [if_neg hb, refresh]
    rw [lem_getBinding_set_mac, hdev]
    rfl

/-- C6: updateMac on an existing client record replaces its MAC address,
and when the record was Blocked before the call the same update also flips
it to Active (bypassed); a record that was not Blocked keeps its state and
only the MAC changes. -/
theorem claim_C6 (s : MTState) (cname macOrIp : Str) (ex : Binding)
    (hfc : find_client_in_ip_bindings s.cache cname = some ex)
    (hip : is_ip_address macOrIp = false)
    (hdev : getBinding s.bindings ex.bid = some ex)
    (hok : (update_client_mac s cname macOrIp).1.1 = true) :
    getBinding (update_client_mac s cname macOrIp).2.bindings ex.bid =
      some { ex with mac := macOrIp,
                     btype := if ex.btype = "blocked".data then "bypassed".data
                              else ex.btype } := by
  rw [update_client_mac] at hok ⊢
  rw [hfc] at hok ⊢
  simp only [] at hok ⊢
  rw [if_neg (by simp [hip])] at hok ⊢
  simp only [] at hok ⊢
  cases hfm : find_mac_in_ip_bindings s.bindings macOrIp with
  | none =>
    simp only [] at hok ⊢
    exact lem_getBinding_upd_core s ex macOrIp hdev
  | some eb =>
    rw [hfm] at hok
    simp only [] at hok
    simp only []
    by_cases hne : eb.bid = ex.bid
    · have hcond : ¬ (eb.bid ≠ ex.bid) := fun hx => hx hne
      rw [if_neg hcond] at hok ⊢
      exact lem_getBinding_upd_core s ex macOrIp hdev
    · have hcond : eb.bid ≠ ex.bid := hne
      rw [if_pos hcond] at hok ⊢
      by_cases hu : is_unauthorized_user eb.comment = true
      · rw [if_pos hu] at hok ⊢
        have hdev2 : getBinding
            (refresh { s with bindings := delete_binding s.bindings eb.bid }).bindings
            ex.bid = some ex := by
          simp only [refresh]
          rw [lem_getBinding_delete ex.bid eb.bid (fun he => hne he.symm)]
          exact hdev
        exact lem_getBinding_upd_core _ ex macOrIp hdev2
      · rw [if_neg hu] at hok
        simp at hok

/-- Witness for C6: updating blocked client bob from MAC AA to BB also
reactivates him. -/
theorem claim_C6_witness :
    getBinding (update_client_mac
        ⟨[⟨1, "AA".data, "blocked".data, "bob @1".data⟩],
         load_clients [⟨1, "AA".data, "blocked".data, "bob @1".data⟩],
         [], [], []⟩ "bob".data "BB".data).2.bindings 1 =
      some { (⟨1, "AA".data, "blocked".data, "bob @1".data⟩ : Binding) with
               mac := "BB".data,
               btype := if ("blocked".data : Str) = "blocked".data
                        then "bypassed".data else "blocked".data } :=
  claim_C6
    ⟨[⟨1, "AA".data, "blocked".data, "bob @1".data⟩],
     load_clients [⟨1, "AA".data, "blocked".data, "bob @1".data⟩], [], [], []⟩
    "bob".data "BB".data ⟨1, "AA".data, "blocked".data, "bob @1".data⟩
    (by decide) (by decide) (by decide) (by decide)

/-- C4 (amended): create (add_new_client), updateMac and the two comment
renames rebuild the client directory from the device on success and
return the state untouched on failure; the setState operations
block_client and activate_client never touch the directory at all, on
success or failure. -/
theorem claim_C4 :
    (∀ (s : MTState) (n : Str), (block_client s n).2.cache = s.cache) ∧
    (∀ (s : MTState) (n : Str), (activate_client s n).2.cache = s.cache) ∧
    (∀ (s : MTState) (n m : Str),
      ((add_new_client s n m).1.1 = true →
        (add_new_client s n m).2.cache =
          load_clients (add_new_client s n m).2.bindings) ∧
      ((add_new_client s n m).1.1 = false → (add_new_client s n m).2 = s)) ∧
    (∀ (s : MTState) (n m : Str),
      ((update_client_mac s n m).1.1 = true →
        (update_client_mac s n m).2.cache =
          load_clients (update_client_mac s n m).2.bindings) ∧
      ((update_client_mac s n m).1.1 = false → (update_client_mac s n m).2 = s)) ∧
    (∀ (s : MTState) (n m : Str),
      ((update_client_name s n m).1.1 = true →
        (update_client_name s n m).2.cache =
          load_clients (update_client_name s n m).2.bindings) ∧
      ((update_client_name s n m).1.1 = false → (update_client_name s n m).2 = s)) ∧
    (∀ (s : MTState) (n m : Str),
      ((update_client_phone s n m).1.1 = true →
        (update_client_phone s n m).2.cache =
          load_clients (update_client_phone s n m).2.bindings) ∧
      ((update_client_phone s n m).1.1 = false →
        (update_client_phone s n m).2 = s)) := by
  refine ⟨?_, ?_, ?_, ?_, ?_, ?_⟩
  · intro s n
    rw [block_client]
    cases hf : find_client_in_ip_bindings s.cache n with
    | some b => rfl
    | none => rfl
  · intro s n
    rw [activate_client]
    cases hf : find_client_in_ip_bindings s.cache n with
    | some b => rfl
    | none => rfl
  · intro s n m
    rw [add_new_client]
    repeat' split
    all_goals
      first
      | exact ⟨fun h => by simp at h, fun _ => rfl⟩
      | exact ⟨fun _ => rfl, fun h => by simp [add_binding_core] at h⟩
  · intro s n m
    rw [update_client_mac]
    repeat' split
    all_goals
      first
      | exact ⟨fun h => by simp at h, fun _ => rfl⟩
      | exact ⟨fun _ => rfl, fun h => by simp [update_mac_core] at h⟩
  · intro s n m
    rw [update_client_name]
    repeat' split
    all_goals
      first
      | exact ⟨fun h => by simp at h, fun _ => rfl⟩
      | exact ⟨fun _ => rfl, fun h => by simp at h⟩
  · intro s n m
    rw [update_client_phone]
    repeat' split
    all_goals
      first
      | exact ⟨fun h => by simp at h, fun _ => rfl⟩
      | exact ⟨fun _ => rfl, fun h => by simp at h⟩

/-- Witness for C4: a successful add rebuilds the directory from the
device list. -/
theorem claim_C4_witness :
    (add_new_client ⟨[], [], [], [], []⟩ "zed".data "AA".data).2.cache =
      load_clients
        (add_new_client ⟨[], [], [], [], []⟩ "zed".data "AA".data).2.bindings :=
  (claim_C4.2.2.1 ⟨[], [], [], [], []⟩ "zed".data "AA".data).1 (by decide)

/-- Counterexample for C4 as stated: blocking client bob succeeds, yet the
directory afterwards is the stale pre-mutation snapshot, not the snapshot
rebuilt from the device (which now carries the blocked record). -/
theorem claim_C4_counterexample :
    (block_client
        ⟨[⟨1, "AA".data, "bypassed".data, "bob".data⟩],
         load_clients [⟨1, "AA".data, "bypassed".data, "bob".data⟩],
         [], [], []⟩ "bob".data).1 = true ∧
    (block_client
        ⟨[⟨1, "AA".data, "bypassed".data, "bob".data⟩],
         load_clients [⟨1, "AA".data, "bypassed".data, "bob".data⟩],
         [], [], []⟩ "bob".data).2.cache ≠
      load_clients
        (block_client
            ⟨[⟨1, "AA".data, "bypassed".data, "bob".data⟩],
             load_clients [⟨1, "AA".data, "bypassed".data, "bob".data⟩],
             [], [], []⟩ "bob".data).2.bindings := by
  refine ⟨by decide, by decide⟩

/-- C1 (amended): when binding a MAC through New or UpdateMac, the
conflict check inspects only the first device binding in scan order whose
MAC equals the target case-insensitively.  When that binding exists and
(in the update case) is a different record than the one being edited: if
its comment starts with the unauthorized marker it is deleted, the
directory is refreshed and the operation proceeds to succeed; otherwise
the operation fails with Already-Exists and mutates nothing.  In the
update case, when the first matching binding is the record being edited
itself, no conflict is detected and the operation proceeds even if a
later binding also holds the MAC. -/
theorem claim_C1 :
    (∀ (s : MTState) (cname mac : Str) (eb : Binding),
       find_client_in_ip_bindings s.cache cname = none →
       is_ip_address mac = false →
       find_mac_in_ip_bindings s.bindings mac = some eb →
       (is_unauthorized_user eb.comment = true →
          (add_new_client s cname mac).1.1 = true ∧
          (add_new_client s cname mac).2.bindings =
            delete_binding s.bindings eb.bid ++
              [⟨freshId (delete_binding s.bindings eb.bid), mac,
                "bypassed".data, cname⟩] ∧
          (add_new_client s cname mac).2.cache =
            load_clients (add_new_client s cname mac).2.bindings) ∧
       (is_unauthorized_user eb.comment = false →
          add_new_client s cname mac = ((false, some "Already-Exists".data), s))) ∧
    (∀ (s : MTState) (cname mac : Str) (ex eb : Binding),
       find_client_in_ip_bindings s.cache cname = some ex →
       is_ip_address mac = false →
       find_mac_in_ip_bindings s.bindings mac = some eb →
       ((eb.bid ≠ ex.bid → is_unauthorized_user eb.comment = true →
           (update_client_mac s cname mac).1.1 = true ∧
           (update_client_mac s cname mac).2.bindings =
             (if ex.btype = "blocked".data then
                set_mac_type (delete_binding s.bindings eb.bid) ex.bid mac
                  "bypassed".data
              else set_mac (delete_binding s.bindings eb.bid) ex.bid mac) ∧
           (update_client_mac s cname mac).2.cache =
             load_clients (update_client_mac s cname mac).2.bindings) ∧
        (eb.bid ≠ ex.bid → is_unauthorized_user eb.comment = false →
           update_client_mac s cname mac =
             ((false, some "Already-Exists".data), s)) ∧
        (eb.bid = ex.bid → (update_client_mac s cname mac).1.1 = true))) := by
  constructor
  · intro s cname mac eb hfc hip hfm
    constructor
    · intro hu
      rw [add_new_client, hfc]
      simp only []
      rw [if_neg (by simp [hip])]
      simp only []
      rw [hfm]
      simp only []
      rw [if_pos hu]
      exact ⟨rfl, rfl, rfl⟩
    · intro hu
      rw [add_new_client, hfc]
      simp only []
      rw [if_neg (by simp [hip])]
      simp only []
      rw [hfm]
      simp only []
      rw [if_neg (by simp [hu])]
  · intro s cname mac ex eb hfc hip hfm
    refine ⟨?_, ?_, ?_⟩
    · intro hne hu
      rw [update_client_mac, hfc]
      simp only []
      rw [if_neg (by simp [hip])]
      simp only []
      rw [hfm]
      simp only []
      rw [if_pos hne, if_pos hu]
      exact ⟨rfl, rfl, rfl⟩
    · intro hne hu
      rw [update_client_mac, hfc]
      simp only []
      rw [if_neg (by simp [hip])]
      simp only []
      rw [hfm]
      simp only []
      rw [if_pos hne, if_neg (by simp [hu])]
    · intro heq
      rw [update_client_mac, hfc]
      simp only []
      rw [if_neg (by simp [hip])]
      simp only []
      rw [hfm]
      simp only []
      rw [if_neg (show ¬ (eb.bid ≠ ex.bid) from fun hx => hx heq)]
      rfl

/-- Witness for C1: adding client zed with the MAC already owned by the
authorized client alice fails with Already-Exists and mutates nothing,
and updating bob to a MAC owned by an unauthorized placeholder succeeds
after deleting the placeholder. -/
theorem claim_C1_witness :
    add_new_client
        ⟨[⟨1, "AA".data, "bypassed".data, "alice @1".data⟩],
         load_clients [⟨1, "AA".data, "bypassed".data, "alice @1".data⟩],
         [], [], []⟩ "zed".data "AA".data =
      ((false, some "Already-Exists".data),
       ⟨[⟨1, "AA".data, "bypassed".data, "alice @1".data⟩],
        load_clients [⟨1, "AA".data, "bypassed".data, "alice @1".data⟩],
        [], [], []⟩) ∧
    (update_client_mac
        ⟨[⟨1, "BB".data, "bypassed".data, "bob @1".data⟩,
          ⟨2, "CC".data, "bypassed".data,
           "ZZZZ=Blocked unauthorized x".data⟩],
         load_clients
           [⟨1, "BB".data, "bypassed".data, "bob @1".data⟩,
            ⟨2, "CC".data, "bypassed".data,
             "ZZZZ=Blocked unauthorized x".data⟩],
         [], [], []⟩ "bob".data "CC".data).1.1 = true :=
  ⟨(claim_C1.1
      ⟨[⟨1, "AA".data, "bypassed".data, "alice @1".data⟩],
       load_clients [⟨1, "AA".data, "bypassed".data, "alice @1".data⟩],
       [], [], []⟩ "zed".data "AA".data
      ⟨1, "AA".data, "bypassed".data, "alice @1".data⟩
      (by decide) (by decide) (by decide)).2 (by decide),
   ((claim_C1.2
      ⟨[⟨1, "BB".data, "bypassed".data, "bob @1".data⟩,
        ⟨2, "CC".data, "bypassed".data, "ZZZZ=Blocked unauthorized x".data⟩],
       load_clients
         [⟨1, "BB".data, "bypassed".data, "bob @1".data⟩,
          ⟨2, "CC".data, "bypassed".data,
           "ZZZZ=Blocked unauthorized x".data⟩],
       [], [], []⟩ "bob".data "CC".data
      ⟨1, "BB".data, "bypassed".data, "bob @1".data⟩
      ⟨2, "CC".data, "bypassed".data, "ZZZZ=Blocked unauthorized x".data⟩
      (by decide) (by decide) (by decide)).1 (by decide) (by decide)).1⟩

/-- Counterexample for C1 as stated: two bindings share the MAC AA; the
record being edited (alice, id 1) comes first in scan order, so the
conflict check sees only it and the update succeeds, even though the
other authorized binding (bob, id 2) also holds the MAC; the claim says
the operation must fail with Already-Exists. -/
theorem claim_C1_counterexample :
    (⟨2, "AA".data, "bypassed".data, "bob".data⟩ : Binding) ∈
      ([⟨1, "AA".data, "bypassed".data, "alice".data⟩,
        ⟨2, "AA".data, "bypassed".data, "bob".data⟩] : List Binding) ∧
    is_unauthorized_user
      (⟨2, "AA".data, "bypassed".data, "bob".data⟩ : Binding).comment = false ∧
    find_client_in_ip_bindings
      (load_clients
        [⟨1, "AA".data, "bypassed".data, "alice".data⟩,
         ⟨2, "AA".data, "bypassed".data, "bob".data⟩]) "alice".data =
      some ⟨1, "AA".data, "bypassed".data, "alice".data⟩ ∧
    (update_client_mac
        ⟨[⟨1, "AA".data, "bypassed".data, "alice".data⟩,
          ⟨2, "AA".data, "bypassed".data, "bob".data⟩],
         load_clients
           [⟨1, "AA".data, "bypassed".data, "alice".data⟩,
            ⟨2, "AA".data, "bypassed".data, "bob".data⟩],
         [], [], []⟩ "alice".data "AA".data).1 = (true, none) := by
  refine ⟨by decide, by decide, by decide, by decide⟩
